import Mathlib

/-!
Verification development for the pistreaming live broadcast pipeline
(`server.py`).  The pipeline reads compressed video from an external
encoder process, fans each chunk out to all connected WebSocket viewers,
and serves the static player page over the same port.

The embedding below models:
* the JSMPEG wire header (`JSMPEG_MAGIC`, `JSMPEG_HEADER`, `WIDTH`, `HEIGHT`);
* the pump loop `BroadcastThread.run` (read from the encoder's stdout,
  broadcast non-empty buffers, exit when a read is empty and the encoder
  process has exited, close stdout on exit);
* the broadcast hub (session registry).  The registry itself lives in the
  external ws4py library, so its operations are modelled from the spec,
  as flagged in their doc comments; the header sent at session open follows
  `StreamingWebSocket.opened` in the source;
* the WSGI dispatcher `application` (route on the HTTP Upgrade header);
* main's startup/shutdown control flow (resource release on startup
  failure, shutdown ordering, reaction to encoder end-of-stream and to
  the operator's interrupt).
-/

namespace PiStream

/-- Configured capture width from server.py. -/
def WIDTH : Nat := 640

/-- Configured capture height from server.py. -/
def HEIGHT : Nat := 480

/-- The magic tag bytes, ASCII codes of the four characters of the
JSMPEG magic constant (j, s, m, p). -/
def JSMPEG_MAGIC : List Nat := [106, 115, 109, 112]

/-- Big-endian packing of one unsigned 16-bit value (struct format H):
high byte then low byte. -/
def packBE16 (n : Nat) : List Nat := [n / 256 % 256, n % 256]

/-- Packing with the header layout of struct format 4sHH big-endian:
four raw magic bytes, then two big-endian unsigned shorts. -/
def JSMPEG_HEADER_pack (magic : List Nat) (w h : Nat) : List Nat :=
  magic.take 4 ++ packBE16 w ++ packBE16 h

/-- The concrete 8-byte header sent by StreamingWebSocket.opened. -/
def headerBytes : List Nat := JSMPEG_HEADER_pack JSMPEG_MAGIC WIDTH HEIGHT

/-! ## Pump loop (`BroadcastThread.run`) -/

/-- One call of stdout.read1 n: a single read returning at most n of
the bytes the operating system has available for this read. -/
def read1 (n : Nat) (avail : List Nat) : List Nat := avail.take n

/-- The loop body of BroadcastThread.run, driven by a finite schedule of
read outcomes.  Each event supplies the bytes available to that read1
call and the encoder's poll result at that moment (none while the
process is alive, some code once it has exited).  Returns the chunks
handed to broadcast, in order, and whether the loop exited via break.
When the schedule is exhausted the loop is still running (false). -/
def BroadcastThread.runLoop : List (List Nat × Option Int) → List (List Nat) × Bool
  | [] => ([], false)
  | (avail, poll) :: rest =>
    let buf := read1 32768 avail
    if buf = [] then
      if poll.isSome then ([], true)
      else BroadcastThread.runLoop rest
    else
      (buf :: (BroadcastThread.runLoop rest).1, (BroadcastThread.runLoop rest).2)

/-- Observable actions of the pump thread: a broadcast call, or the
closing of the converter's stdout in the finally block. -/
inductive PumpEvt where
  | broadcastEvt (chunk : List Nat)
  | closeEvt
deriving DecidableEq

/-- The full action trace of BroadcastThread.run on a schedule: the
broadcasts of the loop, followed by the finally-block close of the
converter's stdout when the loop has exited. -/
def BroadcastThread.runTrace (events : List (List Nat × Option Int)) : List PumpEvt :=
  ((BroadcastThread.runLoop events).1.map PumpEvt.broadcastEvt) ++
    (if (BroadcastThread.runLoop events).2 then [PumpEvt.closeEvt] else [])

/-! ## Broadcast hub (session registry)

Modelled from the spec: the session registry is ws4py's WebSocketManager,
an external library outside this repository.  The operations below follow
the spec's BroadcastHub contract: register sends the stream header before
returning and rejects registration on a closed hub; broadcast delivers to
every active session, removing and closing a session whose delivery
fails; shutdown closes all sessions and marks the hub closed.  The header
sent at open is the one from StreamingWebSocket.opened in the source. -/

/-- A message sent to one viewer: the one-time stream header, or a chunk
of compressed payload. -/
inductive Msg where
  | header (b : List Nat)
  | payload (b : List Nat)
deriving DecidableEq

/-- One connected viewer: its identifier and everything sent to it, in
order. -/
structure Session where
  sid : Nat
  sent : List Msg
deriving DecidableEq

/-- The hub state: the active session set (in registration order), the
next fresh session identifier, the closed flag, and the identifiers of
connections that have been closed (a session id occurs once per close
performed on it). -/
structure Hub where
  sessions : List Session
  nextId : Nat
  closed : Bool
  closedIds : List Nat
deriving DecidableEq

/-- Hub errors. -/
inductive HubErr where
  | hubClosed
deriving DecidableEq

/-- The hub before any registration. -/
def freshHub : Hub := ⟨[], 0, false, []⟩

/-- Modelled from the spec: register creates a session, synchronously
sends the stream header before returning, and adds the session to the
active set; a closed hub rejects registration. -/
def BroadcastHub.register (h : Hub) : Except HubErr (Nat × Hub) :=
  if h.closed then Except.error HubErr.hubClosed
  else Except.ok (h.nextId,
    { h with
      sessions := h.sessions ++ [⟨h.nextId, [Msg.header headerBytes]⟩],
      nextId := h.nextId + 1 })

/-- The hub after a successful registration (unchanged if registration
was rejected). -/
def registerHub (h : Hub) : Hub :=
  match BroadcastHub.register h with
  | Except.ok p => p.2
  | Except.error _ => h

/-- Modelled from the spec: broadcast delivers the chunk to every
currently active session; a session whose delivery fails (decided by the
fail oracle on its id) is removed from the active set and its connection
closed, without aborting delivery to the others. -/
def BroadcastHub.broadcast (fail : Nat → Bool) (chunk : List Nat) (h : Hub) : Hub :=
  { h with
    sessions := h.sessions.filterMap (fun s =>
      if fail s.sid then none
      else some { s with sent := s.sent ++ [Msg.payload chunk] }),
    closedIds := h.closedIds ++ (h.sessions.filter (fun s => fail s.sid)).map Session.sid }

/-- The failure oracle of a run in which no delivery fails. -/
def noFail : Nat → Bool := fun _ => false

/-- The session ids to which one broadcast call attempts delivery:
exactly the current active set. -/
def broadcastAttempts (h : Hub) : List Nat := h.sessions.map Session.sid

/-- A sequence of failure-free broadcasts, oldest chunk first. -/
def foldBroadcast (chunks : List (List Nat)) (h : Hub) : Hub :=
  chunks.foldl (fun acc c => BroadcastHub.broadcast noFail c acc) h

/-- The raw bytes of one message. -/
def msgBytes : Msg → List Nat
  | Msg.header b => b
  | Msg.payload b => b

/-- The byte stream a viewer has received, in send order. -/
def sessionBytes (s : Session) : List Nat := (s.sent.map msgBytes).flatten

/-- Modelled from the spec: shutdown disconnects all sessions (each is
closed once), empties the active set and marks the hub closed. -/
def BroadcastHub.shutdown (h : Hub) : Hub :=
  { sessions := [], nextId := h.nextId, closed := true,
    closedIds := h.closedIds ++ h.sessions.map Session.sid }

/-! ## WSGI dispatcher (`application`) -/

/-- The two applications the dispatcher can route a request to. -/
inductive Route where
  | websocketApp
  | staticApp
deriving DecidableEq

/-- Python str.lower on an ASCII header value, modelled on a character
list. -/
def pyLower (s : List Char) : List Char := s.map Char.toLower

/-- The literal the dispatcher compares against. -/
def websocketWord : List Char := ['w', 'e', 'b', 's', 'o', 'c', 'k', 'e', 't']

/-- The WSGI dispatcher application: the argument is the request's
HTTP_UPGRADE environ value (none when the Upgrade header is absent,
defaulted to the empty value as environ.get does); a value that lowers
to the websocket word routes to the ws4py application, everything else
to the static file application. -/
def application (httpUpgrade : Option (List Char)) : Route :=
  if pyLower (httpUpgrade.getD []) = websocketWord then Route.websocketApp
  else Route.staticApp

/-- Case-insensitive equality of two header values, the notion used by
the spec. -/
def caseInsensitiveEq (a b : List Char) : Prop := pyLower a = pyLower b

/-! ## Pipeline controller -/

/-- The process-wide lifecycle states of the pipeline. -/
inductive PipelineState where
  | Stopped
  | Starting
  | Running
  | Stopping
deriving DecidableEq

/-- Modelled from the spec: the pipeline controller's state is its
lifecycle phase together with the hub it owns.  The repository has no
reinvokable shutdown entry point (the shutdown sequence is main's
finally block, and server/hub shutdown live in the external wsgiref and
ws4py libraries), so the controller operations are modelled from the
spec's words. -/
structure Controller where
  phase : PipelineState
  hub : Hub
deriving DecidableEq

/-- The full stopping sequence: the controller ends Stopped with its hub
shut down. -/
def runStopSequence (c : Controller) : Controller :=
  { phase := PipelineState.Stopped, hub := BroadcastHub.shutdown c.hub }

/-- Modelled from the spec: shutdown runs the stopping sequence once;
invoked while already stopping or stopped it is a no-op and raises no
error. -/
def PipelineController.shutdown (c : Controller) : Except HubErr Controller :=
  match c.phase with
  | PipelineState.Stopping => Except.ok c
  | PipelineState.Stopped => Except.ok c
  | _ => Except.ok (runStopSequence c)

/-! ## Main control flow -/

/-- External events against main's steady state. -/
inductive Ev where
  | encoderEOS
  | keyboardInterrupt
deriving DecidableEq

/-- The state of the running process: the controller phase, whether the
broadcast (pump) thread is still running, and the hub. -/
structure SysState where
  phase : PipelineState
  pumpRunning : Bool
  hub : Hub
deriving DecidableEq

/-- Main's reaction to one event, returning the new state and the list
of controller phases traversed while handling it.  On encoder
end-of-stream the pump loop breaks and its thread terminates, but main's
steady-state loop (while True: sleep(1)) is unaffected: no phase change,
no session closed.  On the operator's interrupt while Running, the
finally blocks run: recording stops, the pump is joined, the server is
shut down closing every session once, and the process ends Stopped. -/
def mainStep (s : SysState) : Ev → SysState × List PipelineState
  | Ev.encoderEOS => ({ s with pumpRunning := false }, [])
  | Ev.keyboardInterrupt =>
    if s.phase = PipelineState.Running then
      ({ phase := PipelineState.Stopped, pumpRunning := false,
         hub := BroadcastHub.shutdown s.hub },
       [PipelineState.Stopping, PipelineState.Stopped])
    else (s, [])

/-! ## Shutdown ordering (main's finally blocks) -/

/-- The externally visible teardown steps of main. -/
inductive Action where
  | stopFrameSource
  | closeEncoderInput
  | waitEncoderExit
  | waitPumpExit
  | shutdownHubAct
  | waitServerThread
  | releaseFrameSource
deriving DecidableEq

/-- BroadcastOutput.flush: close the converter's stdin, then wait for
the converter process to exit. -/
def BroadcastOutput.flush : List Action :=
  [Action.closeEncoderInput, Action.waitEncoderExit]

/-- camera.stop_recording(): stops frame delivery to the output, then
drives the output's flush.  Modelled from the spec: picamera2's
stop_recording, external to the repository, stops the camera feed and
flushes the recording output. -/
def stopRecordingTrace : List Action :=
  Action.stopFrameSource :: BroadcastOutput.flush

/-- The teardown order of main's finally blocks: stop recording, join
the broadcast thread, shut the server down, join the server thread, and
in the outer finally stop and close the camera. -/
def mainShutdownTrace : List Action :=
  stopRecordingTrace ++
    [Action.waitPumpExit, Action.shutdownHubAct, Action.waitServerThread,
     Action.releaseFrameSource]

/-! ## Startup failure handling -/

/-- The two resources the spec requires startup to release on failure. -/
inductive Resource where
  | frameSource
  | encoderProc
deriving DecidableEq

/-- The places an exception can be raised during startup, in main's
program order, including the two thread starts inside the inner try
whose finally runs the teardown sequence. -/
inductive FailAt where
  | atLoadFiles
  | atCameraInit
  | atCameraConfigure
  | atCameraStart
  | atWsApp
  | atMakeServer
  | atBroadcastOutput
  | atStartRecording
  | atServerThreadStart
  | atBroadcastThreadStart
deriving DecidableEq

/-- The resources already acquired when the exception is raised: the
camera is acquired by the Picamera2 constructor, the encoder process by
the Popen inside BroadcastOutput (an exception at atBroadcastOutput is
the Popen itself failing, so no process exists then). -/
def acquiredAt : FailAt → List Resource
  | FailAt.atLoadFiles => []
  | FailAt.atCameraInit => []
  | FailAt.atCameraConfigure => [Resource.frameSource]
  | FailAt.atCameraStart => [Resource.frameSource]
  | FailAt.atWsApp => [Resource.frameSource]
  | FailAt.atMakeServer => [Resource.frameSource]
  | FailAt.atBroadcastOutput => [Resource.frameSource]
  | FailAt.atStartRecording => [Resource.frameSource, Resource.encoderProc]
  | FailAt.atServerThreadStart => [Resource.frameSource, Resource.encoderProc]
  | FailAt.atBroadcastThreadStart => [Resource.frameSource, Resource.encoderProc]

/-- Whether the failure point lies inside the try body whose outer
finally stops and closes the camera.  Loading the files and the camera
initialisation, configuration and start happen before that try. -/
def insideResourceTry : FailAt → Bool
  | FailAt.atWsApp => true
  | FailAt.atMakeServer => true
  | FailAt.atBroadcastOutput => true
  | FailAt.atStartRecording => true
  | FailAt.atServerThreadStart => true
  | FailAt.atBroadcastThreadStart => true
  | _ => false

/-- Whether the failure point lies inside the inner try whose finally
runs the teardown sequence: only the two thread starts precede the
steady-state loop there.  Everything from the ws4py application up to
start_recording happens before that inner try. -/
def insideInnerTry : FailAt → Bool
  | FailAt.atServerThreadStart => true
  | FailAt.atBroadcastThreadStart => true
  | _ => false

/-- The resources released while the startup exception propagates out of
main.  Inside the inner try, its finally's stop_recording drives the
output's flush, which closes the converter's stdin and waits for the
process: the encoder is released.  Inside the outer try, its finally
stops and closes the camera: the frame source is released.  No other
code path terminates the converter process, so an exception after the
spawn but before the inner try (such as one in start_recording) leaves
the encoder process unreleased. -/
def releasedAt (p : FailAt) : List Resource :=
  (if insideInnerTry p then [Resource.encoderProc] else []) ++
    (if insideResourceTry p then [Resource.frameSource] else [])

/-! ## Helper lemmas -/

/-- An empty read while the process is still alive retries the loop. -/
lemma runLoop_retry (avail : List Nat) (rest : List (List Nat × Option Int))
    (hb : read1 32768 avail = []) :
    BroadcastThread.runLoop ((avail, Option.none) :: rest) =
      BroadcastThread.runLoop rest := by
  simp [BroadcastThread.runLoop, hb]

/-- An empty read once the process has exited breaks out of the loop. -/
lemma runLoop_exit (avail : List Nat) (c : Int) (rest : List (List Nat × Option Int))
    (hb : read1 32768 avail = []) :
    BroadcastThread.runLoop ((avail, Option.some c) :: rest) = ([], true) := by
  simp [BroadcastThread.runLoop, hb]

/-- A non-empty read is broadcast and the loop continues. -/
lemma runLoop_bcast (avail : List Nat) (p : Option Int)
    (rest : List (List Nat × Option Int)) (hb : read1 32768 avail ≠ []) :
    BroadcastThread.runLoop ((avail, p) :: rest) =
      (read1 32768 avail :: (BroadcastThread.runLoop rest).1,
        (BroadcastThread.runLoop rest).2) := by
  simp [BroadcastThread.runLoop, hb]

/-- The loop exits only after an empty read with the process exited. -/
lemma runLoop_exit_reason : ∀ events : List (List Nat × Option Int),
    (BroadcastThread.runLoop events).2 = true →
    ∃ avail c, (avail, Option.some c) ∈ events ∧ read1 32768 avail = [] := by
  intro events
  induction events with
  | nil => intro h; simp [BroadcastThread.runLoop] at h
  | cons e rest ih =>
    obtain ⟨avail, poll⟩ := e
    by_cases hb : read1 32768 avail = []
    · cases poll with
      | none =>
        rw [runLoop_retry avail rest hb]
        intro h
        obtain ⟨a, c, hmem, hr⟩ := ih h
        exact ⟨a, c, List.mem_cons_of_mem _ hmem, hr⟩
      | some c =>
        intro _
        exact ⟨avail, c, List.mem_cons_self _ _, hb⟩
    · rw [runLoop_bcast avail poll rest hb]
      intro h
      obtain ⟨a, c, hmem, hr⟩ := ih h
      exact ⟨a, c, List.mem_cons_of_mem _ hmem, hr⟩

/-- Broadcast events are not close events. -/
lemma count_close_map_bcast (l : List (List Nat)) :
    (l.map PumpEvt.broadcastEvt).count PumpEvt.closeEvt = 0 := by
  rw [List.count_eq_zero]
  intro hmem
  obtain ⟨x, _, hx⟩ := List.mem_map.1 hmem
  exact PumpEvt.noConfusion hx

/-- A failure-free broadcast appends the chunk to every session. -/
lemma broadcast_noFail (c : List Nat) (h : Hub) :
    BroadcastHub.broadcast noFail c h =
      { h with sessions := h.sessions.map fun s =>
          { s with sent := s.sent ++ [Msg.payload c] } } := by
  simp [BroadcastHub.broadcast, noFail]
  exact congrFun (List.filterMap_eq_map fun s =>
    { s with sent := s.sent ++ [Msg.payload c] }) h.sessions

/-- A sequence of failure-free broadcasts appends the chunks, in order,
to every session. -/
lemma foldBroadcast_sessions : ∀ (chunks : List (List Nat)) (h : Hub),
    (foldBroadcast chunks h).sessions =
      h.sessions.map fun s => { s with sent := s.sent ++ chunks.map Msg.payload } := by
  intro chunks
  induction chunks with
  | nil =>
    intro h
    simp [foldBroadcast]
  | cons c cs ih =>
    intro h
    have hstep : foldBroadcast (c :: cs) h =
        foldBroadcast cs (BroadcastHub.broadcast noFail c h) := rfl
    rw [hstep, ih, broadcast_noFail]
    simp [List.map_map, Function.comp]

/-- Payload messages never count as a header message. -/
lemma count_header_map_payload (l : List (List Nat)) (b : List Nat) :
    (l.map Msg.payload).count (Msg.header b) = 0 := by
  rw [List.count_eq_zero]
  intro hmem
  obtain ⟨x, _, hx⟩ := List.mem_map.1 hmem
  exact Msg.noConfusion hx

/-- The sessions of the hub after three registrations. -/
lemma hub3_sessions :
    (registerHub (registerHub (registerHub freshHub))).sessions =
      [⟨0, [Msg.header headerBytes]⟩, ⟨1, [Msg.header headerBytes]⟩,
       ⟨2, [Msg.header headerBytes]⟩] := rfl

/-- The sessions of the hub after one registration. -/
lemma hub1_sessions :
    (registerHub freshHub).sessions = [⟨0, [Msg.header headerBytes]⟩] := rfl

/-! ## Claim theorems -/

/-- C1: broadcast delivers chunks to all active sessions in exactly the
order the encoder output produced them — a sequence of failure-free
broadcasts appends exactly the chunk list, in order, to every session's
sent stream (no reordering, no skipping) — and with three registered
sessions and broadcasts of chunks A, B, C, every session's received byte
stream equals its header followed by A ++ B ++ C exactly. -/
theorem broadcast_order_preserved :
    (∀ (chunks : List (List Nat)) (h : Hub),
      (foldBroadcast chunks h).sessions =
        h.sessions.map fun s => { s with sent := s.sent ++ chunks.map Msg.payload }) ∧
    ∀ A B C : List Nat,
      ((foldBroadcast [A, B, C]
          (registerHub (registerHub (registerHub freshHub)))).sessions.map sessionBytes) =
        [headerBytes ++ A ++ B ++ C, headerBytes ++ A ++ B ++ C,
         headerBytes ++ A ++ B ++ C] := by
  refine ⟨foldBroadcast_sessions, ?_⟩
  intro A B C
  rw [foldBroadcast_sessions, hub3_sessions]
  simp [sessionBytes, msgBytes, List.append_assoc]

/-- C3: every session receives, at connection open, exactly one 8-byte
big-endian header — the 4 magic bytes, the 2-byte width 640, the 2-byte
height 480 — and after any sequence of broadcasts the session's sent
stream is that single header followed by payload messages only, so the
header precedes all chunk payload bytes. -/
theorem header_once_before_payload :
    headerBytes.length = 8 ∧
    headerBytes = JSMPEG_MAGIC ++ packBE16 WIDTH ++ packBE16 HEIGHT ∧
    packBE16 WIDTH = [2, 128] ∧
    packBE16 HEIGHT = [1, 224] ∧
    (∀ chunks : List (List Nat),
      (foldBroadcast chunks (registerHub freshHub)).sessions =
        [⟨0, Msg.header headerBytes :: chunks.map Msg.payload⟩]) ∧
    ∀ chunks : List (List Nat),
      ((foldBroadcast chunks (registerHub freshHub)).sessions.map
        fun s => s.sent.count (Msg.header headerBytes)) = [1] := by
  refine ⟨by decide, by decide, by decide, by decide, ?_, ?_⟩
  · intro chunks
    rw [foldBroadcast_sessions, hub1_sessions]
    simp
  · intro chunks
    rw [foldBroadcast_sessions, hub1_sessions]
    simp [List.count_cons, count_header_map_payload]

/-- C9: every chunk the pump loop hands to broadcast comes from a
read1 call bounded by the 32768-byte buffer, so its length is at most
32768, and only non-empty chunks are broadcast. -/
theorem chunk_size_bounded :
    ∀ (events : List (List Nat × Option Int)) (chunk : List Nat),
    chunk ∈ (BroadcastThread.runLoop events).1 →
    chunk.length ≤ 32768 ∧ chunk ≠ [] := by
  intro events
  induction events with
  | nil => intro chunk hmem; simp [BroadcastThread.runLoop] at hmem
  | cons e rest ih =>
    obtain ⟨avail, poll⟩ := e
    intro chunk hmem
    by_cases hb : read1 32768 avail = []
    · cases poll with
      | none =>
        rw [runLoop_retry avail rest hb] at hmem
        exact ih chunk hmem
      | some c =>
        rw [runLoop_exit avail c rest hb] at hmem
        simp at hmem
    · rw [runLoop_bcast avail poll rest hb] at hmem
      rcases List.mem_cons.1 hmem with hc | hc
      · subst hc
        refine ⟨?_, hb⟩
        simp [read1]
      · exact ih chunk hc

/-- Witness for C9 at a concrete schedule: one read with 1 available
byte broadcasts a chunk of length 1. -/
theorem chunk_size_bounded_witness :
    ([7] : List Nat).length ≤ 32768 ∧ ([7] : List Nat) ≠ [] :=
  chunk_size_bounded [([7], Option.none)] [7] (by decide)

/-- C10: the pump loop exits only when a read returns empty bytes while
the encoder's poll result is non-None; an empty read while the process
is alive retries the loop; every non-empty read is broadcast with
nothing dropped; and on loop exit the converter's stdout is closed
exactly once (and not before exit). -/
theorem pump_exit_and_close :
    (∀ (avail : List Nat) (rest : List (List Nat × Option Int)),
      read1 32768 avail = [] →
      BroadcastThread.runLoop ((avail, Option.none) :: rest) =
        BroadcastThread.runLoop rest) ∧
    (∀ (avail : List Nat) (c : Int) (rest : List (List Nat × Option Int)),
      read1 32768 avail = [] →
      BroadcastThread.runLoop ((avail, Option.some c) :: rest) = ([], true)) ∧
    (∀ (avail : List Nat) (p : Option Int) (rest : List (List Nat × Option Int)),
      read1 32768 avail ≠ [] →
      BroadcastThread.runLoop ((avail, p) :: rest) =
        (read1 32768 avail :: (BroadcastThread.runLoop rest).1,
         (BroadcastThread.runLoop rest).2)) ∧
    (∀ events, (BroadcastThread.runLoop events).2 = true →
      ∃ avail c, (avail, Option.some c) ∈ events ∧ read1 32768 avail = []) ∧
    (∀ events, (BroadcastThread.runLoop events).2 = true →
      (BroadcastThread.runTrace events).count PumpEvt.closeEvt = 1) ∧
    ∀ events, (BroadcastThread.runLoop events).2 = false →
      (BroadcastThread.runTrace events).count PumpEvt.closeEvt = 0 := by
  refine ⟨runLoop_retry, runLoop_exit, runLoop_bcast, runLoop_exit_reason, ?_, ?_⟩
  · intro events hx
    simp [BroadcastThread.runTrace, hx, List.count_append, count_close_map_bcast]
  · intro events hx
    simp [BroadcastThread.runTrace, hx, List.count_append, count_close_map_bcast]

/-- Witness for C10 at a concrete schedule: an empty read with the
process exited ends the loop and stdout is closed once. -/
theorem pump_exit_and_close_witness :
    BroadcastThread.runLoop [(([] : List Nat), Option.some 0)] = ([], true) ∧
    (BroadcastThread.runTrace [(([] : List Nat), Option.some 0)]).count
      PumpEvt.closeEvt = 1 :=
  ⟨pump_exit_and_close.2.1 [] 0 [] (by decide),
   pump_exit_and_close.2.2.2.2.1 [([], Option.some 0)] (by decide)⟩

/-- C2 counterexample: with the pipeline Running and one registered
session, encoder end-of-stream makes the pump thread exit, but the
controller traverses no phase (it stays Running, since main keeps
sleeping in its steady-state loop) and the hub is untouched — no session
is closed — refuting the claim that EndOfStream leads the controller to
Stopping then Stopped with all sessions closed. -/
theorem eos_no_controller_transition :
    (mainStep ⟨PipelineState.Running, true, registerHub freshHub⟩
        Ev.encoderEOS).1.pumpRunning = false ∧
    (mainStep ⟨PipelineState.Running, true, registerHub freshHub⟩
        Ev.encoderEOS).1.phase = PipelineState.Running ∧
    (mainStep ⟨PipelineState.Running, true, registerHub freshHub⟩
        Ev.encoderEOS).2 = [] ∧
    (mainStep ⟨PipelineState.Running, true, registerHub freshHub⟩
        Ev.encoderEOS).1.hub = registerHub freshHub :=
  ⟨rfl, rfl, rfl, rfl⟩

/-- C2 amended: the pump loop broadcasts every successful non-empty read
and exits on EndOfStream (empty read with the process exited), but its
exit alone does not move the controller — the phase and the hub are
unchanged; the Stopping-then-Stopped transition, with every session
closed exactly once, happens on the operator's interrupt while
Running. -/
theorem pump_exit_and_operator_shutdown : ∀ s : SysState,
    ((mainStep s Ev.encoderEOS).1.pumpRunning = false ∧
     (mainStep s Ev.encoderEOS).1.phase = s.phase ∧
     (mainStep s Ev.encoderEOS).1.hub = s.hub ∧
     (mainStep s Ev.encoderEOS).2 = []) ∧
    (∀ (avail : List Nat) (p : Option Int) (rest : List (List Nat × Option Int)),
      read1 32768 avail ≠ [] →
      BroadcastThread.runLoop ((avail, p) :: rest) =
        (read1 32768 avail :: (BroadcastThread.runLoop rest).1,
         (BroadcastThread.runLoop rest).2)) ∧
    (∀ (avail : List Nat) (c : Int) (rest : List (List Nat × Option Int)),
      read1 32768 avail = [] →
      BroadcastThread.runLoop ((avail, Option.some c) :: rest) = ([], true)) ∧
    (s.phase = PipelineState.Running →
      (mainStep s Ev.keyboardInterrupt).2 =
        [PipelineState.Stopping, PipelineState.Stopped] ∧
      (mainStep s Ev.keyboardInterrupt).1.phase = PipelineState.Stopped ∧
      (mainStep s Ev.keyboardInterrupt).1.hub.sessions = [] ∧
      (s.hub.closedIds = [] → (s.hub.sessions.map Session.sid).Nodup →
        ∀ i ∈ s.hub.sessions.map Session.sid,
          ((mainStep s Ev.keyboardInterrupt).1.hub.closedIds).count i = 1)) := by
  intro s
  refine ⟨⟨rfl, rfl, rfl, rfl⟩, runLoop_bcast, runLoop_exit, ?_⟩
  intro hrun
  have hm : mainStep s Ev.keyboardInterrupt =
      ({ phase := PipelineState.Stopped, pumpRunning := false,
         hub := BroadcastHub.shutdown s.hub },
       [PipelineState.Stopping, PipelineState.Stopped]) := by
    simp [mainStep, hrun]
  rw [hm]
  refine ⟨rfl, rfl, rfl, ?_⟩
  intro hcl hnd i hi
  simp only [BroadcastHub.shutdown, hcl, List.nil_append]
  exact List.count_eq_one_of_mem hnd hi

/-- Witness for C2 amended at a concrete state: Running with one
registered session, the interrupt traverses Stopping then Stopped and
session 0 is closed exactly once. -/
theorem pump_exit_and_operator_shutdown_witness :
    (mainStep ⟨PipelineState.Running, true, registerHub freshHub⟩
        Ev.keyboardInterrupt).2 =
      [PipelineState.Stopping, PipelineState.Stopped] ∧
    ((mainStep ⟨PipelineState.Running, true, registerHub freshHub⟩
        Ev.keyboardInterrupt).1.hub.closedIds).count 0 = 1 := by
  have h := (pump_exit_and_operator_shutdown
      ⟨PipelineState.Running, true, registerHub freshHub⟩).2.2.2 rfl
  exact ⟨h.1, h.2.2.2 rfl (by decide) 0 (by decide)⟩

/-- C4: main's teardown performs its steps in exactly the claimed
order — stop the frame source, close the encoder's input (and wait for
the encoder), wait for the pump to exit, shut the hub down, release the
frame source's resources — and performs each step exactly once. -/
theorem shutdown_order :
    mainShutdownTrace =
      [Action.stopFrameSource, Action.closeEncoderInput, Action.waitEncoderExit,
       Action.waitPumpExit, Action.shutdownHubAct, Action.waitServerThread,
       Action.releaseFrameSource] ∧
    mainShutdownTrace.indexOf Action.stopFrameSource <
      mainShutdownTrace.indexOf Action.closeEncoderInput ∧
    mainShutdownTrace.indexOf Action.closeEncoderInput <
      mainShutdownTrace.indexOf Action.waitPumpExit ∧
    mainShutdownTrace.indexOf Action.waitPumpExit <
      mainShutdownTrace.indexOf Action.shutdownHubAct ∧
    mainShutdownTrace.indexOf Action.shutdownHubAct <
      mainShutdownTrace.indexOf Action.releaseFrameSource ∧
    ∀ a : Action, mainShutdownTrace.count a = 1 := by
  refine ⟨rfl, by decide, by decide, by decide, by decide, ?_⟩
  intro a
  cases a <;> rfl

/-- C5: a session whose delivery fails is attempted exactly once in the
failing broadcast, is removed from the active set and its connection
closed, while every non-failing session still receives that chunk; the
next broadcast's attempt set no longer contains the removed session. -/
theorem failed_session_dropped :
    ∀ (h : Hub) (fail : Nat → Bool) (chunk : List Nat) (s : Session),
    s ∈ h.sessions →
    ((fail s.sid = true →
       s.sid ∈ broadcastAttempts h ∧
       s.sid ∉ broadcastAttempts (BroadcastHub.broadcast fail chunk h) ∧
       s.sid ∈ (BroadcastHub.broadcast fail chunk h).closedIds) ∧
     (fail s.sid = false →
       { s with sent := s.sent ++ [Msg.payload chunk] } ∈
         (BroadcastHub.broadcast fail chunk h).sessions)) := by
  intro h fail chunk s hs
  constructor
  · intro hf
    refine ⟨List.mem_map_of_mem Session.sid hs, ?_, ?_⟩
    · intro hmem
      simp only [broadcastAttempts, BroadcastHub.broadcast] at hmem
      obtain ⟨t, ht, hts⟩ := List.mem_map.1 hmem
      obtain ⟨u, hu, hut⟩ := List.mem_filterMap.1 ht
      by_cases hfu : fail u.sid = true
      · simp [hfu] at hut
      · simp [hfu] at hut
        have htu : t.sid = u.sid := by rw [← hut]
        have husid : u.sid = s.sid := by rw [← htu]; exact hts
        rw [husid] at hfu
        exact hfu hf
    · simp only [BroadcastHub.broadcast]
      exact List.mem_append.2 (Or.inr (List.mem_map_of_mem Session.sid
        (List.mem_filter.2 ⟨hs, hf⟩)))
  · intro hf
    simp only [BroadcastHub.broadcast]
    exact List.mem_filterMap.2 ⟨s, hs, by simp [hf]⟩

/-- Witness for C5 at a concrete hub of two sessions in which delivery
to session 0 fails: 0 is attempted, removed and closed by that one
broadcast. -/
theorem failed_session_dropped_witness :
    0 ∈ broadcastAttempts (registerHub (registerHub freshHub)) ∧
    0 ∉ broadcastAttempts (BroadcastHub.broadcast (fun n => n == 0) [5]
        (registerHub (registerHub freshHub))) ∧
    0 ∈ (BroadcastHub.broadcast (fun n => n == 0) [5]
        (registerHub (registerHub freshHub))).closedIds :=
  (failed_session_dropped (registerHub (registerHub freshHub)) (fun n => n == 0)
    [5] ⟨0, [Msg.header headerBytes]⟩ (by decide)).1 (by decide)

/-- C6 counterexample: an exception raised in start_recording — after
the encoder process was spawned — propagates with the encoder process
acquired but not released, and an exception in camera configuration —
before the resource try begins — propagates with the frame source
acquired but not released, refuting the claim that every exception
during Starting releases all partially-acquired resources. -/
theorem startup_release_counterexample :
    Resource.encoderProc ∈ acquiredAt FailAt.atStartRecording ∧
    Resource.encoderProc ∉ releasedAt FailAt.atStartRecording ∧
    Resource.frameSource ∈ acquiredAt FailAt.atCameraConfigure ∧
    Resource.frameSource ∉ releasedAt FailAt.atCameraConfigure := by
  decide

/-- C6 amended: an exception during Starting releases the frame source
exactly when it is raised inside the try body guarded by the outer
finally (camera initialisation, configuration and start precede that
try, so failures there release nothing); the encoder process is
released exactly when the exception is raised inside the inner try —
the thread-start points, where the inner finally's stop_recording
flushes the converter — so an exception between the encoder spawn and
the inner try leaves it unreleased; nothing is released that was not
acquired, and at the inner-try points every acquired resource is
released. -/
theorem startup_release_amended : ∀ p : FailAt,
    (insideResourceTry p = false → releasedAt p = []) ∧
    (insideResourceTry p = true → Resource.frameSource ∈ releasedAt p) ∧
    (Resource.encoderProc ∈ releasedAt p ↔ insideInnerTry p = true) ∧
    (∀ r ∈ releasedAt p, r ∈ acquiredAt p) ∧
    (insideInnerTry p = true → ∀ r ∈ acquiredAt p, r ∈ releasedAt p) := by
  intro p
  cases p <;> exact ⟨by decide, by decide, by decide, by decide, by decide⟩

/-- Witness for C6 amended at concrete failure points: at the server
thread start both resources are released; at camera configuration
nothing is released. -/
theorem startup_release_amended_witness :
    Resource.frameSource ∈ releasedAt FailAt.atServerThreadStart ∧
    Resource.encoderProc ∈ releasedAt FailAt.atServerThreadStart ∧
    releasedAt FailAt.atCameraConfigure = [] :=
  ⟨(startup_release_amended FailAt.atServerThreadStart).2.1 (by decide),
   (startup_release_amended FailAt.atServerThreadStart).2.2.1.mpr (by decide),
   (startup_release_amended FailAt.atCameraConfigure).1 (by decide)⟩

/-- C7: shutdown is idempotent — the first call succeeds with a
terminal state on which a second call is a no-op returning the same
state without error, and on a controller already stopping or stopped
shutdown returns the controller unchanged and raises no error. -/
theorem shutdown_idempotent :
    (∀ c : Controller, ∃ c' : Controller,
      PipelineController.shutdown c = Except.ok c' ∧
      PipelineController.shutdown c' = Except.ok c') ∧
    ∀ c : Controller,
      c.phase = PipelineState.Stopping ∨ c.phase = PipelineState.Stopped →
      PipelineController.shutdown c = Except.ok c := by
  constructor
  · intro c
    obtain ⟨ph, hub⟩ := c
    cases ph with
    | Stopped => exact ⟨⟨PipelineState.Stopped, hub⟩, rfl, rfl⟩
    | Stopping => exact ⟨⟨PipelineState.Stopping, hub⟩, rfl, rfl⟩
    | Starting => exact ⟨runStopSequence ⟨PipelineState.Starting, hub⟩, rfl, rfl⟩
    | Running => exact ⟨runStopSequence ⟨PipelineState.Running, hub⟩, rfl, rfl⟩
  · intro c hc
    obtain ⟨ph, hub⟩ := c
    rcases hc with h | h
    · simp only at h
      subst h
      rfl
    · simp only at h
      subst h
      rfl

/-- Witness for C7 at a concrete stopped controller: a repeated
shutdown returns it unchanged. -/
theorem shutdown_idempotent_witness :
    PipelineController.shutdown ⟨PipelineState.Stopped, freshHub⟩ =
      Except.ok ⟨PipelineState.Stopped, freshHub⟩ :=
  shutdown_idempotent.2 ⟨PipelineState.Stopped, freshHub⟩ (Or.inr rfl)

/-- C8: the dispatcher routes a request to the WebSocket application
exactly when its Upgrade header value equals the websocket word
case-insensitively (a missing header defaults to the empty value), and
to the static-asset application exactly otherwise. -/
theorem upgrade_routing : ∀ u : Option (List Char),
    (application u = Route.websocketApp ↔
      caseInsensitiveEq (u.getD []) websocketWord) ∧
    (application u = Route.staticApp ↔
      ¬ caseInsensitiveEq (u.getD []) websocketWord) := by
  intro u
  have hws : pyLower websocketWord = websocketWord := by decide
  unfold application caseInsensitiveEq
  rw [hws]
  by_cases hu : pyLower (u.getD []) = websocketWord
  · simp [hu]
  · simp [hu]

/-- Witness for C8 at a concrete mixed-case header value: it equals the
websocket word case-insensitively and routes to the WebSocket
application. -/
theorem upgrade_routing_witness :
    application (Option.some ['W', 'e', 'b', 'S', 'o', 'c', 'k', 'e', 't']) =
      Route.websocketApp :=
  (upgrade_routing
    (Option.some ['W', 'e', 'b', 'S', 'o', 'c', 'k', 'e', 't'])).1.mpr
    (by unfold caseInsensitiveEq; decide)

end PiStream
